import Mathlib

/-!
Verification development for the tensor-observation core of the
explainable-ai-sdk repository.

The development shallowly embeds the monkey-patching interception engine of
`explainable_ai_sdk/metadata/tf/v1/monkey_patch_utils.py`: the tensor
provenance registry (`FeatureTensors` records, the feature-tensors dict and
the crossed-columns set), the five observing replacement functions, and the
patch / unpatch machinery of `EstimatorMonkeyPatchHelper`, together with a
spec-modelled Explanation selection operation (its implementation file is
not part of the sources, only its test).

Python dictionaries are embedded as insertion-ordered association lists,
Python sets of strings as duplicate-free lists, and Python exceptions as an
`Except` error channel.  TF1 graph-mode tensors compare by object identity,
so membership tests on tensor lists (`tensor not in ...`) are embedded as
comparisons of an identity field `id`, kept separate from the structural
value `val`.
-/

namespace ExplainableAI

/-- An opaque tensor handle. `id` models Python object identity, `val` the
structural contents, `is_sparse` whether the handle is a `tf.SparseTensor`.
TF1 graph tensors compare by object identity, so Python `==` (and hence
list membership) on tensor handles is embedded as equality of `id`. -/
structure Tensor where
  id : Nat
  val : List Int
  is_sparse : Bool := false
deriving DecidableEq, Repr

/-- Groups of tensors representing a feature (class `FeatureTensors`).
`encoded_tensors` defaults to the empty list, as in the constructor. -/
structure FeatureTensors where
  input_tensor : Tensor
  encoded_tensors : List Tensor
deriving DecidableEq, Repr

/-- Python exception classes raised by the embedded code. -/
inductive PyError where
  | valueError (msg : String)
  | keyError
  | indexError
deriving DecidableEq, Repr

/-- Observable events of a replacement function: delegating to the captured
original entry point, and running the observation / recording logic. -/
inductive Event where
  | callOriginal
  | observe
deriving DecidableEq, Repr

instance {ε α : Type} [DecidableEq ε] [DecidableEq α] :
    DecidableEq (Except ε α) := fun a b =>
  match a, b with
  | .ok x, .ok y =>
      if h : x = y then isTrue (congrArg Except.ok h)
      else isFalse (fun hh => h (by injection hh))
  | .error x, .error y =>
      if h : x = y then isTrue (congrArg Except.error h)
      else isFalse (fun hh => h (by injection hh))
  | .ok _, .error _ => isFalse (fun hh => by injection hh)
  | .error _, .ok _ => isFalse (fun hh => by injection hh)

/-- Lookup in an insertion-ordered association list (a Python dict). -/
def dictGet {α : Type} : List (String × α) → String → Option α
  | [], _ => none
  | (k', v) :: rest, k => if k' = k then some v else dictGet rest k

/-- Update / insert in an insertion-ordered association list (a Python dict):
an existing key keeps its position, a new key is appended at the end. -/
def dictSet {α : Type} : List (String × α) → String → α → List (String × α)
  | [], k, v => [(k, v)]
  | (k', v') :: rest, k, v =>
      if k' = k then (k', v) :: rest else (k', v') :: dictSet rest k v

/-- Add an element to a Python set of strings (no-op when present). -/
def setAdd (s : List String) (x : String) : List String :=
  if x ∈ s then s else s ++ [x]

/-- The feature-tensors registry: feature name to list of `FeatureTensors`. -/
abbrev FDict := List (String × List FeatureTensors)

/-- The feature-column values the observing replacements classify, following
the `fc2` hierarchy used by the source: numeric and plain categorical leaf
columns, bucketized / crossed composites, the weighting wrapper, and the
embedding / indicator densifications. -/
inductive FeatureColumn where
  | numeric (key : String)
  | identityCategorical (key : String)
  | vocabListCategorical (key : String)
  | vocabFileCategorical (key : String)
  | hashedCategorical (key : String)
  | bucketized (source_column : FeatureColumn)
  | crossed (keys : List FeatureColumn) (hash_bucket_size : Nat)
  | weightedCategorical (categorical : FeatureColumn) (weight_feature_key : String)
  | embedding (categorical : FeatureColumn) (dimension : Nat)
  | indicator (categorical : FeatureColumn)

mutual

/-- The `name` property of a feature column, derived as in `fc2`. -/
def FeatureColumn.name : FeatureColumn → String
  | .numeric k => k
  | .identityCategorical k => k
  | .vocabListCategorical k => k
  | .vocabFileCategorical k => k
  | .hashedCategorical k => k
  | .bucketized src => src.name ++ "_bucketized"
  | .crossed ks _ => String.intercalate "_X_" (FeatureColumn.nameList ks)
  | .weightedCategorical c wk => c.name ++ "_weighted_by_" ++ wk
  | .embedding c _ => c.name ++ "_embedding"
  | .indicator c => c.name ++ "_indicator"

/-- Names of a list of feature columns. -/
def FeatureColumn.nameList : List FeatureColumn → List String
  | [] => []
  | c :: rest => c.name :: FeatureColumn.nameList rest

end

/-- The `categorical_column` attribute: `some` exactly for the columns that
expose it (`hasattr(fc, "categorical_column")` in the source). -/
def FeatureColumn.categorical_column : FeatureColumn → Option FeatureColumn
  | .weightedCategorical c _ => some c
  | .embedding c _ => some c
  | .indicator c => some c
  | _ => none

/-- Embeds `isinstance(fc, fc2.BucketizedColumn)`. -/
def FeatureColumn.isBucketized : FeatureColumn → Bool
  | .bucketized _ => true
  | _ => false

/-- Embeds `isinstance(fc, fc2.CrossedColumn)`. -/
def FeatureColumn.isCrossed : FeatureColumn → Bool
  | .crossed _ _ => true
  | _ => false

/-- Embeds `isinstance(fc, fc2.WeightedCategoricalColumn)`. -/
def FeatureColumn.isWeighted : FeatureColumn → Bool
  | .weightedCategorical _ _ => true
  | _ => false

/-- Embeds `isinstance(fc, fc2.CategoricalColumn)`: the plain categorical
leaves, crossed, bucketized (dual-natured) and weighted columns. -/
def FeatureColumn.isCategoricalColumn : FeatureColumn → Bool
  | .identityCategorical _ => true
  | .vocabListCategorical _ => true
  | .vocabFileCategorical _ => true
  | .hashedCategorical _ => true
  | .crossed _ _ => true
  | .bucketized _ => true
  | .weightedCategorical _ _ => true
  | _ => false

/-- The `keys` attribute of a crossed column. -/
def FeatureColumn.keys : FeatureColumn → List FeatureColumn
  | .crossed ks _ => ks
  | _ => []

/-- Embeds `EstimatorMonkeyPatchHelper._add_input_tensor_to_dict`: append a
fresh `FeatureTensors` record unless a record with the identical input
tensor handle is already present (`tensor not in [...]`, identity-based). -/
def add_input_tensor_to_dict (feature_tensors : FDict) (fc : FeatureColumn)
    (tensor : Tensor) : FDict :=
  let feature_tensors_list := (dictGet feature_tensors fc.name).getD []
  let feature_tensors_list :=
    if (feature_tensors_list.map (fun r => r.input_tensor)).any
        (fun u => u.id == tensor.id) then
      feature_tensors_list
    else
      feature_tensors_list ++ [{ input_tensor := tensor, encoded_tensors := [] }]
  dictSet feature_tensors fc.name feature_tensors_list

/-- Embeds `EstimatorMonkeyPatchHelper._add_encoded_tensor_to_dict`: raises
`ValueError` when the feature name has no entry; otherwise appends the
tensor to the last record, unless an identical handle is already present.
Python indexing `[-1]` on an empty record list would raise `IndexError`
(that entry shape is never produced by the engine). -/
def add_encoded_tensor_to_dict (feature_tensors : FDict) (fc : FeatureColumn)
    (tensor : Tensor) : Except PyError FDict :=
  match dictGet feature_tensors fc.name with
  | none =>
      .error (.valueError "Trying to add encoded tensors with no input tensor.")
  | some lst =>
      match lst.getLast? with
      | none => .error .indexError
      | some feature_tensor =>
          let feature_tensor :=
            if feature_tensor.encoded_tensors.any (fun u => u.id == tensor.id) then
              feature_tensor
            else
              { feature_tensor with
                  encoded_tensors := feature_tensor.encoded_tensors ++ [tensor] }
          .ok (dictSet feature_tensors fc.name (lst.dropLast ++ [feature_tensor]))

/-- The fan-out loop of `_observing_get_dense_tensor` over the keys of a
crossed column: each constituent name is added to the crossed set and the
result tensor is recorded as an encoded observation under that key; a
recording failure propagates, abandoning the remaining keys. -/
def crossed_dense_fanout (feature_tensors : FDict) (crossed_columns : List String)
    (result : Tensor) :
    List FeatureColumn → Except PyError Unit × FDict × List String
  | [] => (.ok (), feature_tensors, crossed_columns)
  | column :: rest =>
      let crossed_columns := setAdd crossed_columns column.name
      match add_encoded_tensor_to_dict feature_tensors column result with
      | .error e => (.error e, feature_tensors, crossed_columns)
      | .ok ft => crossed_dense_fanout ft crossed_columns result rest

/-- Embeds the replacement `_observing_get_dense_tensor`.  The original is
always called first (`result = old_fn(instance, ...)`); classification and
recording happen afterwards, so the event trace is the constant
`[callOriginal, observe]`. -/
def observing_get_dense_tensor (old_fn : FeatureColumn → Tensor)
    (feature_tensors : FDict) (crossed_columns : List String)
    (inst : FeatureColumn) :
    Except PyError Tensor × FDict × List String × List Event :=
  let result := old_fn inst
  let step : Except PyError Tensor × FDict × List String :=
    match inst.categorical_column with
    | some fc =>
        if fc.isBucketized then
          (.ok result, feature_tensors, crossed_columns)
        else if fc.isCrossed then
          match crossed_dense_fanout feature_tensors crossed_columns result fc.keys with
          | (.ok _, ft, cc) => (.ok result, ft, cc)
          | (.error e, ft, cc) => (.error e, ft, cc)
        else
          match add_encoded_tensor_to_dict feature_tensors fc result with
          | .ok ft => (.ok result, ft, crossed_columns)
          | .error e => (.error e, feature_tensors, crossed_columns)
    | none =>
        if inst.isBucketized then
          (.ok result, feature_tensors, crossed_columns)
        else
          (.ok result, add_input_tensor_to_dict feature_tensors inst result,
           crossed_columns)
  (step.1, step.2.1, step.2.2, [Event.callOriginal, Event.observe])

/-- Embeds the replacement `_observing_get_sparse_tensors`: the original is
called first; crossed and bucketized columns are skipped; the weighting
wrapper is transparent (its wrapped base categorical column is recorded). -/
def observing_get_sparse_tensors (old_fn : FeatureColumn → Tensor)
    (feature_tensors : FDict) (inst : FeatureColumn) :
    Except PyError Tensor × FDict × List Event :=
  let result := old_fn inst
  let ft :=
    if !(inst.isCrossed || inst.isBucketized) then
      let fc := if inst.isWeighted then inst.categorical_column.getD inst else inst
      add_input_tensor_to_dict feature_tensors fc result
    else feature_tensors
  (.ok result, ft, [Event.callOriginal, Event.observe])

/-- Embeds the replacement `_observing_create_weighted_sum`: the original is
called first; categorical non-bucketized columns are observed; a crossed
column only contributes its constituent names to the crossed set; otherwise
the result is recorded as an encoded observation under the column (or its
wrapped base categorical column). -/
def observing_create_weighted_sum (old_fn : FeatureColumn → Tensor)
    (feature_tensors : FDict) (crossed_columns : List String)
    (column : FeatureColumn) :
    Except PyError Tensor × FDict × List String × List Event :=
  let result := old_fn column
  let step : Except PyError Tensor × FDict × List String :=
    if column.isCategoricalColumn && !column.isBucketized then
      if column.isCrossed then
        (.ok result, feature_tensors,
         column.keys.foldl (fun s c => setAdd s c.name) crossed_columns)
      else
        let fc := column.categorical_column.getD column
        match add_encoded_tensor_to_dict feature_tensors fc result with
        | .ok ft => (.ok result, ft, crossed_columns)
        | .error e => (.error e, feature_tensors, crossed_columns)
    else (.ok result, feature_tensors, crossed_columns)
  (step.1, step.2.1, step.2.2, [Event.callOriginal, Event.observe])

/-- Embeds the replacement `_observing_transform_features_v2`: the original
is called first; every resulting (column, tensor) pair whose column has no
nested categorical column and whose name is not yet recorded is added as an
input observation.  A sparse tensor is first wrapped in an `IdWeightPair`
with a `None` weight; namedtuple equality on such a pair reduces to identity
of the wrapped tensor, so the wrap keeps the identity field. -/
def observing_transform_features_v2
    (old_fn : Unit → List (FeatureColumn × Tensor)) (feature_tensors : FDict) :
    Except PyError (List (FeatureColumn × Tensor)) × FDict × List Event :=
  let result := old_fn ()
  let ft := result.foldl
    (fun ft p =>
      if p.1.categorical_column.isNone && (dictGet ft p.1.name).isNone then
        let tensor := if p.2.is_sparse then { p.2 with is_sparse := false } else p.2
        add_input_tensor_to_dict ft p.1 tensor
      else ft)
    feature_tensors
  (.ok result, ft, [Event.callOriginal, Event.observe])

/-- The prediction-key constants of the estimator library used by the export
replacement. -/
def PredictionKeys.LOGITS : String := "logits"

/-- The generic predictions key constant of the estimator library. -/
def PredictionKeys.PREDICTIONS : String := "predictions"

/-- Arguments of `export_outputs_for_mode`; only the predictions dictionary
is inspected by the observing replacement, the rest is passed through. -/
structure ExportArgs where
  mode : String
  serving_export_outputs : Option Nat := none
  predictions : List (String × Tensor) := []
  loss : Option Nat := none
  metrics : Option Nat := none

/-- Embeds the replacement `_observing_export_outputs_for_mode`.  The
observation block runs first: with a truthy configured output key the key
must be present in the predictions dictionary or a `ValueError` naming it is
raised; otherwise the key is inferred preferring `logits` over
`predictions`, raising when neither is present.  Only then is the original
called, its result returned unmodified; the event trace records that the
observation precedes the original call. -/
def observing_export_outputs_for_mode (old_fn : ExportArgs → Nat)
    (output_key : Option String) (observing_dict : List (String × Tensor))
    (args : ExportArgs) :
    Except PyError Nat × List (String × Tensor) × List Event :=
  let infer :
      Except PyError Nat × List (String × Tensor) × List Event :=
    match dictGet args.predictions PredictionKeys.LOGITS with
    | some t =>
        (.ok (old_fn args), dictSet observing_dict PredictionKeys.LOGITS t,
         [Event.observe, Event.callOriginal])
    | none =>
        match dictGet args.predictions PredictionKeys.PREDICTIONS with
        | some t =>
            (.ok (old_fn args),
             dictSet observing_dict PredictionKeys.PREDICTIONS t,
             [Event.observe, Event.callOriginal])
        | none =>
            (.error (.valueError "Output keys are not specified and not inferred."),
             observing_dict, [Event.observe])
  match output_key with
  | some key =>
      if key = "" then infer
      else
        match dictGet args.predictions key with
        | some t =>
            (.ok (old_fn args), dictSet observing_dict key t,
             [Event.observe, Event.callOriginal])
        | none =>
            (.error (.valueError ("Output key " ++ key ++ " is not found.")),
             observing_dict, [Event.observe])
  | none => infer

/-- A function value living in a patchable attribute slot: either an
original library function (tagged by its qualified name) or one of the five
observing wrappers produced by the `_make_observing_*` factories, wrapping
the function it replaced.  The export wrapper also closes over the
configured output key. -/
inductive Fn where
  | base (tag : String)
  | obs_dense (orig : Fn)
  | obs_sparse (orig : Fn)
  | obs_weighted (orig : Fn)
  | obs_export (orig : Fn) (output_key : Option String)
  | obs_transform (orig : Fn)
deriving DecidableEq, Repr

/-- A `setattr` event: which attribute of which object was written. -/
structure SetEvent where
  obj : String
  attr : String
deriving DecidableEq, Repr

/-- The shared attribute environment the engine rewrites: a map from
(object, attribute name) to the function value currently installed. -/
abbrev Env := List ((String × String) × Fn)

/-- Embeds `getattr`; all attributes the engine touches exist on their
objects, so the missing-attribute branch (Python `AttributeError`) is
represented by a sentinel value. -/
def getattrD : Env → String → String → Fn
  | [], _, _ => Fn.base "AttributeError"
  | ((o, a), v) :: rest, o', a' =>
      if o = o' ∧ a = a' then v else getattrD rest o' a'

/-- Embeds `setattr` on the shared attribute environment. -/
def setattrE (env : Env) (o a : String) (v : Fn) : Env := ((o, a), v) :: env

/-- Embeds `EstimatorMonkeyPatchHelper._patch_entities`: for each object in
order, read the current attribute, install the wrapper built from it, and
collect the read value; also returns the trace of `setattr` events. -/
def patch_entities :
    Env → List String → String → (Fn → Fn) → Env × List Fn × List SetEvent
  | env, [], _, _ => (env, [], [])
  | env, obj :: rest, attr_name, patching_function =>
      let original := getattrD env obj attr_name
      let new_attr := patching_function original
      let env := setattrE env obj attr_name new_attr
      let (envF, originals, events) := patch_entities env rest attr_name patching_function
      (envF, original :: originals, ⟨obj, attr_name⟩ :: events)

/-- Embeds `EstimatorMonkeyPatchHelper._unpatch_entities`: write each saved
original back, pairing objects with originals in order (`zip` stops at the
shorter list); also returns the trace of `setattr` events. -/
def unpatch_entities :
    Env → List String → String → List Fn → Env × List SetEvent
  | env, obj :: rest, attr_name, original_fun :: originals =>
      let env := setattrE env obj attr_name original_fun
      let (envF, events) := unpatch_entities env rest attr_name originals
      (envF, ⟨obj, attr_name⟩ :: events)
  | env, _, _, _ => (env, [])

/-- The dense feature-column classes patched on `get_dense_tensor`
(`_FEATURE_COLUMNS_TO_PATCH_DENSE`). -/
def FEATURE_COLUMNS_TO_PATCH_DENSE : List String :=
  ["fc2.DenseColumn", "fc2.NumericColumn", "fc2.EmbeddingColumn",
   "fc2.IndicatorColumn", "fc2.BucketizedColumn"]

/-- The categorical feature-column classes patched on `get_sparse_tensors`
(`_FEATURE_COLUMNS_TO_PATCH_SPARSE`). -/
def FEATURE_COLUMNS_TO_PATCH_SPARSE : List String :=
  ["fc2.VocabularyListCategoricalColumn", "fc2.VocabularyFileCategoricalColumn",
   "fc2.IdentityCategoricalColumn", "fc2.HashedCategoricalColumn",
   "fc2.CrossedColumn", "fc2.BucketizedColumn", "fc2.WeightedCategoricalColumn"]

/-- The originals captured by `_patch_estimator_to_observe` on the helper
instance (`self._actual_*`). -/
structure SavedOriginals where
  actual_get_dense_tensor_list : List Fn
  actual_get_sparse_tensors_list : List Fn
  actual_create_weighted_sum : Fn
  actual_export_for_mode : Fn
  actual_transform : Fn
deriving DecidableEq, Repr

/-- Embeds `EstimatorMonkeyPatchHelper._patch_estimator_to_observe`:
patches, in order, `get_dense_tensor` on the dense classes,
`get_sparse_tensors` on the sparse classes, `fc2._create_weighted_sum`,
`export_lib.export_outputs_for_mode` and `fc2._transform_features_v2`,
capturing the originals on the helper. -/
def patch_estimator_to_observe (env : Env) (output_key : Option String) :
    Env × SavedOriginals × List SetEvent :=
  let (env1, dense_originals, ev1) :=
    patch_entities env FEATURE_COLUMNS_TO_PATCH_DENSE "get_dense_tensor" Fn.obs_dense
  let (env2, sparse_originals, ev2) :=
    patch_entities env1 FEATURE_COLUMNS_TO_PATCH_SPARSE "get_sparse_tensors" Fn.obs_sparse
  let (env3, ws_originals, ev3) :=
    patch_entities env2 ["fc2"] "_create_weighted_sum" Fn.obs_weighted
  let (env4, ex_originals, ev4) :=
    patch_entities env3 ["export_lib"] "export_outputs_for_mode"
      (fun f => Fn.obs_export f output_key)
  let (env5, tr_originals, ev5) :=
    patch_entities env4 ["fc2"] "_transform_features_v2" Fn.obs_transform
  (env5,
   { actual_get_dense_tensor_list := dense_originals
     actual_get_sparse_tensors_list := sparse_originals
     actual_create_weighted_sum := ws_originals.headD (Fn.base "IndexError")
     actual_export_for_mode := ex_originals.headD (Fn.base "IndexError")
     actual_transform := tr_originals.headD (Fn.base "IndexError") },
   ev1 ++ ev2 ++ ev3 ++ ev4 ++ ev5)

/-- Embeds `EstimatorMonkeyPatchHelper._unpatch_estimator_to_observe`:
restores the five groups with the captured originals, in the order written
in the source (dense, sparse, weighted sum, export, transform). -/
def unpatch_estimator_to_observe (env : Env) (saved : SavedOriginals) :
    Env × List SetEvent :=
  let (env1, ev1) :=
    unpatch_entities env FEATURE_COLUMNS_TO_PATCH_DENSE "get_dense_tensor"
      saved.actual_get_dense_tensor_list
  let (env2, ev2) :=
    unpatch_entities env1 FEATURE_COLUMNS_TO_PATCH_SPARSE "get_sparse_tensors"
      saved.actual_get_sparse_tensors_list
  let (env3, ev3) :=
    unpatch_entities env2 ["fc2"] "_create_weighted_sum"
      [saved.actual_create_weighted_sum]
  let (env4, ev4) :=
    unpatch_entities env3 ["export_lib"] "export_outputs_for_mode"
      [saved.actual_export_for_mode]
  let (env5, ev5) :=
    unpatch_entities env4 ["fc2"] "_transform_features_v2"
      [saved.actual_transform]
  (env5, ev1 ++ ev2 ++ ev3 ++ ev4 ++ ev5)

/-- Embeds `EstimatorMonkeyPatchHelper.exporting_context`: patch on entry,
run the protected body (an arbitrary environment transformation that either
returns normally or raises), and unpatch unconditionally in the `finally`
block, for both exit paths. -/
def exporting_context (env : Env) (output_key : Option String)
    (body : Env → Env × Except String Unit) :
    Env × SavedOriginals × List SetEvent × Except String Unit :=
  let (env1, saved, evP) := patch_estimator_to_observe env output_key
  let (env2, outcome) := body env1
  let (env3, evU) := unpatch_estimator_to_observe env2 saved
  (env3, saved, evP ++ evU, outcome)

/-- The (object, attribute) slots replaced by the engine. -/
def patchedSlots : List (String × String) :=
  (FEATURE_COLUMNS_TO_PATCH_DENSE.map (fun o => (o, "get_dense_tensor")))
  ++ (FEATURE_COLUMNS_TO_PATCH_SPARSE.map (fun o => (o, "get_sparse_tensors")))
  ++ [("fc2", "_create_weighted_sum"), ("export_lib", "export_outputs_for_mode"),
      ("fc2", "_transform_features_v2")]

/-- A pristine attribute environment holding a distinct original library
function in every patched slot. -/
def env0 : Env := patchedSlots.map (fun s => (s, Fn.base (s.1 ++ "." ++ s.2)))

/-- The attribute at slot (`o`, `a`) is identical after a full
`exporting_context` scope to its value at scope entry. -/
def restoredSlot (env : Env) (output_key : Option String)
    (body : Env → Env × Except String Unit) (o a : String) : Prop :=
  getattrD (exporting_context env output_key body).1 o a = getattrD env o a

/-- Modelled from the spec: one class of a multi-class attribution response
(`Attribution` of `explainable_ai_sdk/model/explanation.py`, a file not
among the sources; the spec and `explanation_test.py` fix its shape): label
index, per-subfeature attribution values, baseline score, example score,
output name and approximation error.  Scores are embedded as rationals. -/
structure Attribution where
  attributions : List (String × List Rat)
  baseline_score : Rat
  example_score : Rat
  label_index : Int
  output_name : String
  approx_error : Rat
deriving DecidableEq, Repr

/-- Modelled from the spec: an `Explanation` is a collection of
`Attribution` values keyed by label index, built from the ordered
`attributions_by_label` sequence of the response. -/
structure Explanation where
  attributions_by_label : List Attribution
deriving DecidableEq, Repr

/-- Modelled from the spec: the attribution with the maximum example score;
on ties the first-seen attribution is kept. -/
def maxByExampleScore : List Attribution → Option Attribution
  | [] => none
  | a :: rest =>
      some (rest.foldl
        (fun best x => if best.example_score < x.example_score then x else best) a)

/-- Modelled from the spec: `select_attribution` / `get_attribution` returns
the requested class attribution by label index, failing with a
`LookupError`-class error (`KeyError`) when the index is absent, and with no
class index returns the attribution with the maximum example score. -/
def Explanation.get_attribution (e : Explanation) (class_index : Option Int) :
    Except PyError Attribution :=
  match class_index with
  | some i =>
      match e.attributions_by_label.find? (fun a => a.label_index == i) with
      | some a => .ok a
      | none => .error .keyError
  | none =>
      match maxByExampleScore e.attributions_by_label with
      | some a => .ok a
      | none => .error .keyError

/-- The first fake attribution of `ExplanationTest.setUp`: example score
0.4, label index 170. -/
def fake_attr_1 : Attribution :=
  { attributions := [("data", [0.01, 0.02, 0.03]), ("test", [0.1, 0.2, 0.3])]
    baseline_score := 0.0001
    example_score := 0.4
    label_index := 170
    output_name := "probability"
    approx_error := 0.033 }

/-- The second fake attribution of `ExplanationTest.setUp`: example score
0.17658, label index 2. -/
def fake_attr_2 : Attribution :=
  { attributions := [("data", [0.3, 0.01, 0.13]), ("test", [0.05, 0.02, 0.23])]
    baseline_score := 0.0001
    example_score := 0.17658
    label_index := 2
    output_name := "probability"
    approx_error := 0.02 }

/-- The explanation built from the fake response of
`ExplanationTest.setUp`. -/
def explanation_fixture : Explanation :=
  { attributions_by_label := [fake_attr_1, fake_attr_2] }

/-- Whether a feature name has a (necessarily non-empty) record list in the
registry. -/
def hasRecord (ft : FDict) (n : String) : Bool :=
  match dictGet ft n with
  | none => false
  | some l => !l.isEmpty

/-- The encoded-tensors list of the most recently created record of a
feature name (the record Python addresses as `feature_tensors[name][-1]`). -/
def lastEncoded (ft : FDict) (n : String) : List Tensor :=
  (((dictGet ft n).getD []).getLastD
    { input_tensor := { id := 0, val := [] }, encoded_tensors := [] }).encoded_tensors

/-- How many tensors with the given identity a list holds. -/
def countById (l : List Tensor) (i : Nat) : Nat :=
  (l.filter (fun t => t.id == i)).length

/-- The identities of the input tensors recorded for a feature name. -/
def inputIds (ft : FDict) (n : String) : List Nat :=
  ((dictGet ft n).getD []).map (fun r => r.input_tensor.id)

/-- The number of `FeatureTensors` records of a feature name. -/
def recordsLen (ft : FDict) (n : String) : Nat :=
  ((dictGet ft n).getD []).length

/-- A concrete tensor handle used by concrete instantiations. -/
def tA : Tensor := { id := 1, val := [5] }

/-- A second concrete tensor handle, distinct from `tA`. -/
def tB : Tensor := { id := 2, val := [6] }

/-- A concrete result tensor for crossed-column observations. -/
def tR : Tensor := { id := 7, val := [9] }

/-- A concrete categorical column named `a`. -/
def colA : FeatureColumn := .identityCategorical "a"

/-- A concrete categorical column named `b`. -/
def colB : FeatureColumn := .identityCategorical "b"

/-- A concrete crossed column over `colA` and `colB`. -/
def crossAB : FeatureColumn := .crossed [colA, colB] 10

/-- A registry holding one input record for each of `a` and `b`. -/
def ft0 : FDict :=
  [("a", [{ input_tensor := tA, encoded_tensors := [] }]),
   ("b", [{ input_tensor := tB, encoded_tensors := [] }])]

/-- A registry holding one record for `f` whose encoded list already holds
a tensor with identity 9. -/
def ftEnc : FDict :=
  [("f", [{ input_tensor := { id := 0, val := [] },
            encoded_tensors := [{ id := 9, val := [] }] }])]

theorem dictGet_dictSet {α : Type} (d : List (String × α)) (k k' : String) (v : α) :
    dictGet (dictSet d k v) k' = if k' = k then some v else dictGet d k' := by
  induction d with
  | nil =>
      by_cases h : k' = k
      · simp [dictGet, dictSet, h]
      · simp [dictGet, dictSet, h, Ne.symm h]
  | cons p rest ih =>
      obtain ⟨a, b⟩ := p
      by_cases h1 : a = k
      · subst h1
        by_cases h2 : k' = a
        · subst h2; simp [dictGet, dictSet]
        · simp [dictGet, dictSet, h2, Ne.symm h2]
      · by_cases h2 : a = k'
        · subst h2
          have hk : ¬ a = k := h1
          simp [dictGet, dictSet, hk, Ne.symm hk]
        · simp [dictGet, dictSet, h1, h2, ih]

theorem dictSet_self {α : Type} (d : List (String × α)) (k : String) (v : α)
    (h : dictGet d k = some v) : dictSet d k v = d := by
  induction d with
  | nil => simp [dictGet] at h
  | cons p rest ih =>
      obtain ⟨a, b⟩ := p
      by_cases h1 : a = k
      · subst h1
        simp [dictGet] at h
        simp [dictSet, h]
      · simp [dictGet, h1] at h
        simp [dictSet, h1, ih h]

theorem add_encoded_spec (ft : FDict) (fc : FeatureColumn) (t : Tensor)
    (pre : List FeatureTensors) (lt : FeatureTensors)
    (h : dictGet ft fc.name = some (pre ++ [lt])) :
    add_encoded_tensor_to_dict ft fc t =
      .ok (dictSet ft fc.name (pre ++
        [if lt.encoded_tensors.any (fun u => u.id == t.id) then lt
         else { lt with encoded_tensors := lt.encoded_tensors ++ [t] }])) := by
  unfold add_encoded_tensor_to_dict
  rw [h]
  simp only [List.getLast?_concat, List.dropLast_concat]

theorem hasRecord_concat (ft : FDict) (n : String) (h : hasRecord ft n = true) :
    ∃ pre lt, dictGet ft n = some (pre ++ [lt]) := by
  unfold hasRecord at h
  cases hd : dictGet ft n with
  | none => rw [hd] at h; simp at h
  | some l =>
      rw [hd] at h
      have hne : l ≠ [] := by
        intro hnil
        rw [hnil] at h
        simp at h
      refine ⟨l.dropLast, l.getLast hne, ?_⟩
      rw [List.dropLast_append_getLast hne]

theorem lastEncoded_of_get (ft : FDict) (n : String) (pre : List FeatureTensors)
    (lt : FeatureTensors) (h : dictGet ft n = some (pre ++ [lt])) :
    lastEncoded ft n = lt.encoded_tensors := by
  unfold lastEncoded
  rw [h]
  simp [List.getLastD_concat]

theorem countById_zero_iff (l : List Tensor) (i : Nat) :
    countById l i = 0 ↔ l.any (fun t => t.id == i) = false := by
  unfold countById
  induction l with
  | nil => simp
  | cons t rest ih =>
      by_cases h : t.id = i <;> simp [h, ih]

theorem countById_concat_self (l : List Tensor) (t : Tensor) :
    countById (l ++ [t]) t.id = countById l t.id + 1 := by
  unfold countById
  simp [List.filter_append]

theorem mem_setAdd_of_mem (s : List String) (x y : String) (h : y ∈ s) :
    y ∈ setAdd s x := by
  unfold setAdd
  split
  · exact h
  · exact List.mem_append_left _ h

theorem mem_setAdd_self (s : List String) (x : String) : x ∈ setAdd s x := by
  unfold setAdd
  split
  · assumption
  · exact List.mem_append_right _ (List.mem_singleton_self x)

theorem foldl_setAdd_mono (ks : List FeatureColumn) :
    ∀ (cc : List String) (s : String), s ∈ cc →
      s ∈ ks.foldl (fun acc c => setAdd acc c.name) cc := by
  induction ks with
  | nil => intro cc s hs; exact hs
  | cons c rest ih =>
      intro cc s hs
      exact ih _ s (mem_setAdd_of_mem cc c.name s hs)

theorem mem_foldl_setAdd (ks : List FeatureColumn) :
    ∀ (cc : List String) (k : FeatureColumn), k ∈ ks →
      k.name ∈ ks.foldl (fun acc c => setAdd acc c.name) cc := by
  induction ks with
  | nil => intro cc k hk; cases hk
  | cons c rest ih =>
      intro cc k hk
      rcases List.mem_cons.1 hk with h | h
      · subst h
        exact foldl_setAdd_mono rest _ _ (mem_setAdd_self cc k.name)
      · exact ih _ k h

theorem input_any_iff (ft : FDict) (n : String) (i : Nat) :
    ((((dictGet ft n).getD []).map (fun r => r.input_tensor)).any
        (fun u => u.id == i) = true)
      ↔ i ∈ inputIds ft n := by
  unfold inputIds
  simp [List.any_map, List.any_eq_true, List.mem_map, Function.comp]

theorem add_input_not_mem (ft : FDict) (fc : FeatureColumn) (t : Tensor)
    (h : t.id ∉ inputIds ft fc.name) :
    add_input_tensor_to_dict ft fc t
      = dictSet ft fc.name (((dictGet ft fc.name).getD [])
          ++ [{ input_tensor := t, encoded_tensors := [] }]) := by
  unfold add_input_tensor_to_dict
  dsimp only
  rw [if_neg (fun hc => h ((input_any_iff ft fc.name t.id).1 hc))]

theorem add_input_mem (ft : FDict) (fc : FeatureColumn) (t : Tensor)
    (h : t.id ∈ inputIds ft fc.name) :
    add_input_tensor_to_dict ft fc t
      = dictSet ft fc.name ((dictGet ft fc.name).getD []) := by
  unfold add_input_tensor_to_dict
  dsimp only
  rw [if_pos ((input_any_iff ft fc.name t.id).2 h)]

theorem add_encoded_step (ft : FDict) (k : FeatureColumn) (result : Tensor)
    (hrec : hasRecord ft k.name = true)
    (hdisj : countById (lastEncoded ft k.name) result.id = 0
        ∨ (countById (lastEncoded ft k.name) result.id = 1
           ∧ result ∈ lastEncoded ft k.name)) :
    ∃ ft₁, add_encoded_tensor_to_dict ft k result = .ok ft₁
      ∧ countById (lastEncoded ft₁ k.name) result.id = 1
      ∧ result ∈ lastEncoded ft₁ k.name
      ∧ (∀ m, m ≠ k.name → lastEncoded ft₁ m = lastEncoded ft m)
      ∧ (∀ m, m ≠ k.name → hasRecord ft₁ m = hasRecord ft m)
      ∧ hasRecord ft₁ k.name = true
      ∧ (countById (lastEncoded ft k.name) result.id = 1
          → lastEncoded ft₁ k.name = lastEncoded ft k.name) := by
  obtain ⟨pre, lt, hget⟩ := hasRecord_concat ft k.name hrec
  have hlast : lastEncoded ft k.name = lt.encoded_tensors :=
    lastEncoded_of_get ft k.name pre lt hget
  have hadd := add_encoded_spec ft k result pre lt hget
  by_cases hany : lt.encoded_tensors.any (fun u => u.id == result.id) = true
  · rw [if_pos hany, dictSet_self ft k.name (pre ++ [lt]) hget] at hadd
    have hone : countById (lastEncoded ft k.name) result.id = 1
        ∧ result ∈ lastEncoded ft k.name := by
      rcases hdisj with h0 | h1
      · exfalso
        rw [hlast] at h0
        have hf := (countById_zero_iff lt.encoded_tensors result.id).1 h0
        rw [hf] at hany
        exact Bool.noConfusion hany
      · exact h1
    exact ⟨ft, hadd, hone.1, hone.2, fun m _ => rfl, fun m _ => rfl, hrec,
      fun _ => rfl⟩
  · have hanyF : lt.encoded_tensors.any (fun u => u.id == result.id) = false := by
      cases hA : lt.encoded_tensors.any (fun u => u.id == result.id) with
      | false => rfl
      | true => exact absurd hA hany
    have h0 : countById lt.encoded_tensors result.id = 0 :=
      (countById_zero_iff lt.encoded_tensors result.id).2 hanyF
    rw [if_neg (by simp [hanyF])] at hadd
    have hget₁ := fun m =>
      dictGet_dictSet ft k.name m
        (pre ++ [{ lt with encoded_tensors := lt.encoded_tensors ++ [result] }])
    have hlast₁ : lastEncoded
        (dictSet ft k.name
          (pre ++ [{ lt with encoded_tensors := lt.encoded_tensors ++ [result] }]))
        k.name = lt.encoded_tensors ++ [result] :=
      lastEncoded_of_get _ _ pre
        { lt with encoded_tensors := lt.encoded_tensors ++ [result] }
        ((hget₁ k.name).trans (if_pos rfl))
    refine ⟨_, hadd, ?_, ?_, ?_, ?_, ?_, ?_⟩
    · rw [hlast₁, countById_concat_self, h0]
    · rw [hlast₁]
      exact List.mem_append_right _ (List.mem_singleton_self result)
    · intro m hm
      unfold lastEncoded
      rw [hget₁ m, if_neg hm]
    · intro m hm
      unfold hasRecord
      rw [hget₁ m, if_neg hm]
    · unfold hasRecord
      rw [hget₁ k.name, if_pos rfl]
      simp
    · intro h1
      rw [hlast] at h1
      omega

theorem crossed_dense_fanout_spec (result : Tensor) (ks : List FeatureColumn) :
    ∀ (ft : FDict) (cc : List String),
      (∀ k ∈ ks, hasRecord ft k.name = true
          ∧ (countById (lastEncoded ft k.name) result.id = 0
             ∨ (countById (lastEncoded ft k.name) result.id = 1
                ∧ result ∈ lastEncoded ft k.name))) →
      ∃ ft' cc',
        crossed_dense_fanout ft cc result ks = (.ok (), ft', cc')
        ∧ (∀ k ∈ ks, k.name ∈ cc'
            ∧ countById (lastEncoded ft' k.name) result.id = 1
            ∧ result ∈ lastEncoded ft' k.name)
        ∧ (∀ n, countById (lastEncoded ft n) result.id = 1
              → result ∈ lastEncoded ft n
              → countById (lastEncoded ft' n) result.id = 1
                ∧ result ∈ lastEncoded ft' n)
        ∧ (∀ s ∈ cc, s ∈ cc') := by
  induction ks with
  | nil =>
      intro ft cc _
      exact ⟨ft, cc, rfl, by simp, fun n h1 h2 => ⟨h1, h2⟩, fun s hs => hs⟩
  | cons k rest ih =>
      intro ft cc hpre
      obtain ⟨hrec, hdisj⟩ := hpre k (List.mem_cons_self k rest)
      obtain ⟨ft₁, hadd, hcnt₁, hmem₁, hlastO, hrecO, hreck, honeK⟩ :=
        add_encoded_step ft k result hrec hdisj
      have hone₁ : ∀ n, countById (lastEncoded ft n) result.id = 1 →
          result ∈ lastEncoded ft n →
          countById (lastEncoded ft₁ n) result.id = 1
            ∧ result ∈ lastEncoded ft₁ n := by
        intro n h1 h2
        by_cases hn : n = k.name
        · subst hn
          exact ⟨hcnt₁, hmem₁⟩
        · rw [hlastO n hn]
          exact ⟨h1, h2⟩
      have hpre₁ : ∀ k' ∈ rest, hasRecord ft₁ k'.name = true
          ∧ (countById (lastEncoded ft₁ k'.name) result.id = 0
             ∨ (countById (lastEncoded ft₁ k'.name) result.id = 1
                ∧ result ∈ lastEncoded ft₁ k'.name)) := by
        intro k' hk'
        obtain ⟨hr', hd'⟩ := hpre k' (List.mem_cons_of_mem k hk')
        by_cases hn : k'.name = k.name
        · rw [hn]
          exact ⟨hreck, Or.inr ⟨hcnt₁, hmem₁⟩⟩
        · rw [hrecO k'.name hn, hlastO k'.name hn]
          exact ⟨hr', hd'⟩
      obtain ⟨ft', cc', heq, hks, hpres, hccm⟩ := ih ft₁ (setAdd cc k.name) hpre₁
      refine ⟨ft', cc', ?_, ?_, ?_, ?_⟩
      · show crossed_dense_fanout ft cc result (k :: rest) = (Except.ok (), ft', cc')
        unfold crossed_dense_fanout
        rw [hadd]
        exact heq
      · intro k0 hk0
        rcases List.mem_cons.1 hk0 with h | h
        · subst h
          exact ⟨hccm k0.name (mem_setAdd_self cc k0.name),
            (hpres k0.name hcnt₁ hmem₁).1, (hpres k0.name hcnt₁ hmem₁).2⟩
        · exact hks k0 h
      · intro n h1 h2
        obtain ⟨ha, hb⟩ := hone₁ n h1 h2
        exact hpres n ha hb
      · intro s hs
        exact hccm s (mem_setAdd_of_mem cc k.name s hs)

/-- C1: for every engine instance and every pre-scope state of the five
patched entry points, after `exporting_context` exits, whether its body
returns normally or raises, every patched attribute is restored to exactly
the original captured at scope entry: patch followed by unpatch is the
identity on all fifteen patched slots. -/
theorem exporting_context_restores_all_patched_entry_points
    (env : Env) (output_key : Option String)
    (body : Env → Env × Except String Unit) :
    restoredSlot env output_key body "fc2.DenseColumn" "get_dense_tensor"
    ∧ restoredSlot env output_key body "fc2.NumericColumn" "get_dense_tensor"
    ∧ restoredSlot env output_key body "fc2.EmbeddingColumn" "get_dense_tensor"
    ∧ restoredSlot env output_key body "fc2.IndicatorColumn" "get_dense_tensor"
    ∧ restoredSlot env output_key body "fc2.BucketizedColumn" "get_dense_tensor"
    ∧ restoredSlot env output_key body "fc2.VocabularyListCategoricalColumn" "get_sparse_tensors"
    ∧ restoredSlot env output_key body "fc2.VocabularyFileCategoricalColumn" "get_sparse_tensors"
    ∧ restoredSlot env output_key body "fc2.IdentityCategoricalColumn" "get_sparse_tensors"
    ∧ restoredSlot env output_key body "fc2.HashedCategoricalColumn" "get_sparse_tensors"
    ∧ restoredSlot env output_key body "fc2.CrossedColumn" "get_sparse_tensors"
    ∧ restoredSlot env output_key body "fc2.BucketizedColumn" "get_sparse_tensors"
    ∧ restoredSlot env output_key body "fc2.WeightedCategoricalColumn" "get_sparse_tensors"
    ∧ restoredSlot env output_key body "fc2" "_create_weighted_sum"
    ∧ restoredSlot env output_key body "export_lib" "export_outputs_for_mode"
    ∧ restoredSlot env output_key body "fc2" "_transform_features_v2" :=
  ⟨rfl, rfl, rfl, rfl, rfl, rfl, rfl, rfl, rfl, rfl, rfl, rfl, rfl, rfl, rfl⟩

/-- C2 counterexample: entering a second scope on a pristine environment
does not fail; it overwrites the saved original of `_create_weighted_sum`
with the already-patched wrapper installed by the first entry, which is not
the original library function. -/
theorem second_patch_clobbers_originals_counterexample :
    (patch_estimator_to_observe (patch_estimator_to_observe env0 none).1
        none).2.1.actual_create_weighted_sum
      = Fn.obs_weighted (Fn.base "fc2._create_weighted_sum")
    ∧ Fn.obs_weighted (Fn.base "fc2._create_weighted_sum")
      ≠ Fn.base "fc2._create_weighted_sum" := by decide

/-- C2 amended: a second `begin_scope` while a scope is active does not
raise; it installs the replacements again and saves, as the presumed
originals, exactly the already-patched wrappers installed (with the first
output key) by the first entry. -/
theorem second_patch_overwrites_saved_originals (env : Env)
    (k1 k2 : Option String) :
    (patch_estimator_to_observe (patch_estimator_to_observe env k1).1 k2).2.1
      = { actual_get_dense_tensor_list :=
            FEATURE_COLUMNS_TO_PATCH_DENSE.map
              (fun o => Fn.obs_dense (getattrD env o "get_dense_tensor"))
          actual_get_sparse_tensors_list :=
            FEATURE_COLUMNS_TO_PATCH_SPARSE.map
              (fun o => Fn.obs_sparse (getattrD env o "get_sparse_tensors"))
          actual_create_weighted_sum :=
            Fn.obs_weighted (getattrD env "fc2" "_create_weighted_sum")
          actual_export_for_mode :=
            Fn.obs_export (getattrD env "export_lib" "export_outputs_for_mode") k1
          actual_transform :=
            Fn.obs_transform (getattrD env "fc2" "_transform_features_v2") } := rfl

/-- C8 counterexample: on a pristine environment the trace of restoration
events is not the reverse of the trace of installation events (it is the
same sequence, which starts with the dense group in both directions). -/
theorem unpatch_order_not_reversed_counterexample :
    (unpatch_estimator_to_observe (patch_estimator_to_observe env0 none).1
        (patch_estimator_to_observe env0 none).2.1).2
      ≠ ((patch_estimator_to_observe env0 none).2.2).reverse := by decide

/-- C8 amended: restoration proceeds over the patched groups in the same
order as installation, not the reverse: the sequence of restoring `setattr`
events equals the sequence of installing `setattr` events. -/
theorem unpatch_order_matches_patch_order (env env2 : Env)
    (output_key : Option String) :
    (unpatch_estimator_to_observe env2
        (patch_estimator_to_observe env output_key).2.1).2
      = (patch_estimator_to_observe env output_key).2.2 := rfl

/-- C4: recording an encoded observation for a feature-column name that is
not a key of the feature-tensors registry raises the `ValueError`
consistency error; no updated registry is produced, so the registry and the
crossed-columns set (which the operation never touches) are unchanged. -/
theorem add_encoded_without_input_record_raises (ft : FDict)
    (fc : FeatureColumn) (t : Tensor) (h : dictGet ft fc.name = none) :
    add_encoded_tensor_to_dict ft fc t
      = .error (.valueError "Trying to add encoded tensors with no input tensor.") := by
  unfold add_encoded_tensor_to_dict
  rw [h]

/-- Witness for C4 at a concrete input: the empty registry has no record
for feature `a`. -/
theorem add_encoded_without_input_record_raises_witness :
    add_encoded_tensor_to_dict ([] : FDict) (.numeric "a") tA
      = .error (.valueError "Trying to add encoded tensors with no input tensor.") :=
  add_encoded_without_input_record_raises [] (.numeric "a") tA rfl

/-- C6: with a truthy configured output key the export replacement records
the prediction tensor under that key, raising a `ValueError` naming the key
when it is absent; with no configured key it records under `logits` when
present, else under `predictions` when present, and raises when neither key
is present. -/
theorem export_output_key_selection (old : ExportArgs → Nat)
    (obs : List (String × Tensor)) (args : ExportArgs) (key : String)
    (hk : key ≠ "") :
    (observing_export_outputs_for_mode old (some key) obs args
      = match dictGet args.predictions key with
        | some t =>
            (.ok (old args), dictSet obs key t,
             [Event.observe, Event.callOriginal])
        | none =>
            (.error (.valueError ("Output key " ++ key ++ " is not found.")),
             obs, [Event.observe]))
    ∧ (observing_export_outputs_for_mode old none obs args
      = match dictGet args.predictions "logits",
              dictGet args.predictions "predictions" with
        | some t, _ =>
            (.ok (old args), dictSet obs "logits" t,
             [Event.observe, Event.callOriginal])
        | none, some t =>
            (.ok (old args), dictSet obs "predictions" t,
             [Event.observe, Event.callOriginal])
        | none, none =>
            (.error (.valueError "Output keys are not specified and not inferred."),
             obs, [Event.observe])) := by
  constructor
  · cases hd : dictGet args.predictions key <;>
      simp [observing_export_outputs_for_mode, hk, hd]
  · cases hl : dictGet args.predictions "logits" <;>
      cases hp : dictGet args.predictions "predictions" <;>
        simp [observing_export_outputs_for_mode, PredictionKeys.LOGITS,
          PredictionKeys.PREDICTIONS, hl, hp]

/-- Witness for C6 at a concrete input: a configured key `score` present in
the predictions dictionary is recorded and the original result returned. -/
theorem export_output_key_selection_witness :
    observing_export_outputs_for_mode (fun _ => 5) (some "score") []
        { mode := "m", predictions := [("score", tA)] }
      = (.ok 5, [("score", tA)], [Event.observe, Event.callOriginal]) := by
  have h := (export_output_key_selection (fun _ => 5) []
    { mode := "m", predictions := [("score", tA)] } "score" (by decide)).1
  simpa using h

/-- C9: on the two-class response of the explanation test (example scores
0.4 with label 170 and 0.17658 with label 2), requesting no class index
selects the attribution with the maximal example score (label 170),
requesting class index 2 selects the attribution with label 2, and
requesting the absent class index 9 raises the `LookupError`-class
`KeyError`. -/
theorem get_attribution_selection :
    explanation_fixture.get_attribution none = .ok fake_attr_1
    ∧ fake_attr_1.label_index = 170
    ∧ fake_attr_1.example_score = 0.4
    ∧ explanation_fixture.get_attribution (some 2) = .ok fake_attr_2
    ∧ fake_attr_2.label_index = 2
    ∧ fake_attr_2.example_score = 0.17658
    ∧ explanation_fixture.get_attribution (some 9) = .error .keyError := by
  refine ⟨?_, rfl, rfl, ?_, rfl, rfl, ?_⟩
  · simp only [Explanation.get_attribution, explanation_fixture,
      maxByExampleScore, List.foldl]
    rw [if_neg (by norm_num [fake_attr_1, fake_attr_2])]
  · simp [Explanation.get_attribution, explanation_fixture, List.find?,
      fake_attr_1, fake_attr_2]
  · simp [Explanation.get_attribution, explanation_fixture, List.find?,
      fake_attr_1, fake_attr_2]

/-- C3 counterexample: at a concrete input with a configured output key
absent from the predictions, the export-output replacement raises a
`ValueError` during its observation block and the captured original is
never called: the event trace holds no `callOriginal` event, and the call
returns an error instead of the original result. -/
theorem observation_precedes_original_in_export_hook :
    (observing_export_outputs_for_mode (fun _ => 42) (some "score") []
        { mode := "infer", predictions := [("other", tA)] }).2.2 = [Event.observe]
    ∧ Event.callOriginal ∉
        (observing_export_outputs_for_mode (fun _ => 42) (some "score") []
          { mode := "infer", predictions := [("other", tA)] }).2.2
    ∧ (observing_export_outputs_for_mode (fun _ => 42) (some "score") []
        { mode := "infer", predictions := [("other", tA)] }).1
      = .error (.valueError "Output key score is not found.") := by decide

/-- C3 amended: the four tensor-observing replacements call the captured
original first (their traces start with `callOriginal`) and, when no
consistency error is raised, return the original result unmodified; the
export-output replacement runs its observation block first (its trace
starts with `observe`, and it can raise before the original is ever
called), but when it succeeds it also returns the original result
unmodified. -/
theorem replacements_delegate_and_preserve_result :
    (∀ (old : FeatureColumn → Tensor) (ft : FDict) (cc : List String)
        (inst : FeatureColumn),
        (observing_get_dense_tensor old ft cc inst).2.2.2
          = [Event.callOriginal, Event.observe]
        ∧ ((observing_get_dense_tensor old ft cc inst).1 = .ok (old inst)
           ∨ ∃ e, (observing_get_dense_tensor old ft cc inst).1 = .error e))
    ∧ (∀ (old : FeatureColumn → Tensor) (ft : FDict) (inst : FeatureColumn),
        (observing_get_sparse_tensors old ft inst).2.2
          = [Event.callOriginal, Event.observe]
        ∧ (observing_get_sparse_tensors old ft inst).1 = .ok (old inst))
    ∧ (∀ (old : FeatureColumn → Tensor) (ft : FDict) (cc : List String)
        (col : FeatureColumn),
        (observing_create_weighted_sum old ft cc col).2.2.2
          = [Event.callOriginal, Event.observe]
        ∧ ((observing_create_weighted_sum old ft cc col).1 = .ok (old col)
           ∨ ∃ e, (observing_create_weighted_sum old ft cc col).1 = .error e))
    ∧ (∀ (old : Unit → List (FeatureColumn × Tensor)) (ft : FDict),
        (observing_transform_features_v2 old ft).2.2
          = [Event.callOriginal, Event.observe]
        ∧ (observing_transform_features_v2 old ft).1 = .ok (old ()))
    ∧ (∀ (old : ExportArgs → Nat) (key : Option String)
        (obs : List (String × Tensor)) (args : ExportArgs),
        (observing_export_outputs_for_mode old key obs args).2.2.head?
          = some Event.observe
        ∧ ((observing_export_outputs_for_mode old key obs args).1
             = .ok (old args)
           ∨ ∃ e, (observing_export_outputs_for_mode old key obs args).1
             = .error e)) := by
  refine ⟨fun old ft cc inst => ⟨rfl, ?_⟩, fun old ft inst => ⟨rfl, rfl⟩,
    fun old ft cc col => ⟨rfl, ?_⟩, fun old ft => ⟨rfl, rfl⟩,
    fun old key obs args => ⟨?_, ?_⟩⟩
  · unfold observing_get_dense_tensor
    dsimp only
    repeat' split
    all_goals first | exact Or.inl rfl | exact Or.inr ⟨_, rfl⟩
  · unfold observing_create_weighted_sum
    dsimp only
    repeat' split
    all_goals first | exact Or.inl rfl | exact Or.inr ⟨_, rfl⟩
  · unfold observing_export_outputs_for_mode
    dsimp only
    repeat' split
    all_goals rfl
  · unfold observing_export_outputs_for_mode
    dsimp only
    repeat' split
    all_goals first | exact Or.inl rfl | exact Or.inr ⟨_, rfl⟩

/-- C5 counterexample: at a concrete input, the weighted-sum replacement on
a crossed column over keys `a` and `b` (each holding an input record) adds
both names to the crossed set but leaves the feature-tensors registry
unchanged: no encoded observation of the result tensor is recorded on this
interception path. -/
theorem weighted_sum_hook_records_no_encoded_for_crossed :
    (observing_create_weighted_sum (fun _ => tR) ft0 [] crossAB).2.1 = ft0
    ∧ (observing_create_weighted_sum (fun _ => tR) ft0 [] crossAB).2.2.1
      = ["a", "b"]
    ∧ (observing_create_weighted_sum (fun _ => tR) ft0 [] crossAB).1
      = .ok tR
    ∧ lastEncoded (observing_create_weighted_sum (fun _ => tR) ft0 []
        crossAB).2.1 "a" = [] := by decide

/-- C5 amended: on the dense-tensor replacement a crossed composite fans
out: when every constituent key holds a prior input record and the result
tensor is new to it, every constituent name is added to the crossed set and
the result tensor is recorded exactly once as an encoded observation under
every constituent key; the weighted-sum replacement only adds the
constituent names to the crossed set and records no encoded observation,
leaving the feature-tensors registry unchanged. -/
theorem crossed_fanout_behavior (old : FeatureColumn → Tensor) (ft : FDict)
    (cc : List String) (inst : FeatureColumn) (ks : List FeatureColumn)
    (n : Nat) (hcat : inst.categorical_column = some (.crossed ks n))
    (hpre : ∀ k ∈ ks, hasRecord ft k.name = true
        ∧ countById (lastEncoded ft k.name) (old inst).id = 0) :
    ((observing_get_dense_tensor old ft cc inst).1 = .ok (old inst)
      ∧ ∀ k ∈ ks,
          k.name ∈ (observing_get_dense_tensor old ft cc inst).2.2.1
          ∧ old inst ∈
              lastEncoded (observing_get_dense_tensor old ft cc inst).2.1 k.name
          ∧ countById
              (lastEncoded (observing_get_dense_tensor old ft cc inst).2.1 k.name)
              (old inst).id = 1)
    ∧ ((observing_create_weighted_sum old ft cc (.crossed ks n)).1
          = .ok (old (.crossed ks n))
      ∧ (observing_create_weighted_sum old ft cc (.crossed ks n)).2.1 = ft
      ∧ ∀ k ∈ ks, k.name ∈
          (observing_create_weighted_sum old ft cc (.crossed ks n)).2.2.1) := by
  obtain ⟨ft', cc', heq, hks, _, _⟩ :=
    crossed_dense_fanout_spec (old inst) ks ft cc
      (fun k hk => ⟨(hpre k hk).1, Or.inl (hpre k hk).2⟩)
  have hhook : observing_get_dense_tensor old ft cc inst
      = (.ok (old inst), ft', cc', [Event.callOriginal, Event.observe]) := by
    unfold observing_get_dense_tensor
    rw [hcat]
    dsimp only [FeatureColumn.isBucketized, FeatureColumn.isCrossed,
      FeatureColumn.keys]
    rw [heq]
    rfl
  refine ⟨?_, rfl, rfl, fun k hk => mem_foldl_setAdd ks cc k hk⟩
  rw [hhook]
  refine ⟨rfl, fun k hk => ?_⟩
  obtain ⟨hmemcc, hcnt, hmem⟩ := hks k hk
  exact ⟨hmemcc, hmem, hcnt⟩

/-- Witness for C5 at a concrete input: the dense replacement on an
indicator over the cross of `a` and `b` (each with an input record in
`ft0`) records the result under `a` and adds its name to the crossed set,
and the weighted-sum replacement adds `b` to the crossed set. -/
theorem crossed_fanout_behavior_witness :
    colA.name ∈ (observing_get_dense_tensor (fun _ => tR) ft0 []
        (.indicator crossAB)).2.2.1
    ∧ tR ∈ lastEncoded (observing_get_dense_tensor (fun _ => tR) ft0 []
        (.indicator crossAB)).2.1 colA.name
    ∧ colB.name ∈ (observing_create_weighted_sum (fun _ => tR) ft0 []
        crossAB).2.2.1 := by
  have h := crossed_fanout_behavior (fun _ => tR) ft0 [] (.indicator crossAB)
    [colA, colB] 10 rfl (by decide)
  have hma : colA ∈ [colA, colB] := List.mem_cons_self colA [colB]
  have hmb : colB ∈ [colA, colB] :=
    List.mem_cons_of_mem colA (List.mem_cons_self colB [])
  exact ⟨(h.1.2 colA hma).1, (h.1.2 colA hma).2.1, h.2.2.2 colB hmb⟩

/-- C7: recording two structurally equal but distinct tensor handles as
inputs for a feature yields two records (two more than before), while
re-recording the handle with the same identity appends nothing to the
input list, and re-recording a tensor whose identity is already present in
the last record appends nothing to the encoded list: de-duplication is by
identity, never by structural value equality. -/
theorem identity_based_dedup (ft : FDict) (fc : FeatureColumn)
    (t1 t2 t3 : Tensor) (pre : List FeatureTensors) (lt : FeatureTensors)
    (hid : t1.id ≠ t2.id) (hval : t1.val = t2.val)
    (h1 : t1.id ∉ inputIds ft fc.name) (h2 : t2.id ∉ inputIds ft fc.name)
    (hget : dictGet ft fc.name = some (pre ++ [lt]))
    (h3 : lt.encoded_tensors.any (fun u => u.id == t3.id) = true) :
    recordsLen (add_input_tensor_to_dict (add_input_tensor_to_dict ft fc t1)
        fc t2) fc.name
      = recordsLen ft fc.name + 2
    ∧ add_input_tensor_to_dict (add_input_tensor_to_dict ft fc t1) fc t1
      = add_input_tensor_to_dict ft fc t1
    ∧ add_encoded_tensor_to_dict ft fc t3 = .ok ft := by
  have e1 := add_input_not_mem ft fc t1 h1
  have hg1 : dictGet (add_input_tensor_to_dict ft fc t1) fc.name
      = some (((dictGet ft fc.name).getD [])
          ++ [{ input_tensor := t1, encoded_tensors := [] }]) := by
    rw [e1, dictGet_dictSet, if_pos rfl]
  have hids1 : inputIds (add_input_tensor_to_dict ft fc t1) fc.name
      = inputIds ft fc.name ++ [t1.id] := by
    unfold inputIds
    rw [hg1]
    simp
  refine ⟨?_, ?_, ?_⟩
  · have h2' : t2.id ∉ inputIds (add_input_tensor_to_dict ft fc t1) fc.name := by
      rw [hids1]
      intro hmem
      rcases List.mem_append.1 hmem with hA | hB
      · exact h2 hA
      · exact hid (List.mem_singleton.1 hB).symm
    rw [add_input_not_mem _ fc t2 h2']
    unfold recordsLen
    rw [dictGet_dictSet, if_pos rfl, hg1]
    simp
  · have h1' : t1.id ∈ inputIds (add_input_tensor_to_dict ft fc t1) fc.name := by
      rw [hids1]
      exact List.mem_append_right _ (List.mem_singleton_self _)
    rw [add_input_mem _ fc t1 h1', hg1]
    exact dictSet_self _ _ _ hg1
  · have hadd := add_encoded_spec ft fc t3 pre lt hget
    rw [if_pos h3, dictSet_self ft fc.name (pre ++ [lt]) hget] at hadd
    exact hadd

/-- Witness for C7 at concrete inputs: tensors with identities 1 and 2 but
the same structural value recorded for feature `f` of `ftEnc` (whose sole
record holds input identity 0 and encoded identity 9), and tensor identity
9 re-recorded as encoded. -/
theorem identity_based_dedup_witness :
    recordsLen (add_input_tensor_to_dict
        (add_input_tensor_to_dict ftEnc (.numeric "f")
          { id := 1, val := [5] })
        (.numeric "f") { id := 2, val := [5] }) "f"
      = recordsLen ftEnc "f" + 2
    ∧ add_input_tensor_to_dict
        (add_input_tensor_to_dict ftEnc (.numeric "f") { id := 1, val := [5] })
        (.numeric "f") { id := 1, val := [5] }
      = add_input_tensor_to_dict ftEnc (.numeric "f") { id := 1, val := [5] }
    ∧ add_encoded_tensor_to_dict ftEnc (.numeric "f") { id := 9, val := [1] }
      = .ok ftEnc :=
  identity_based_dedup ftEnc (.numeric "f") { id := 1, val := [5] }
    { id := 2, val := [5] } { id := 9, val := [1] } []
    { input_tensor := { id := 0, val := [] },
      encoded_tensors := [{ id := 9, val := [] }] }
    (by decide) (by decide) (by decide) (by decide) rfl (by decide)

/-- C10: when a feature name holds records, recording an encoded
observation succeeds and produces the registry in which only the last
record of that name changed, its input tensor kept and its encoded list
extended by the tensor (by nothing if the identity is already present); the
lookup of any other feature name is unchanged. -/
theorem add_encoded_appends_only_to_last_record (ft : FDict)
    (fc : FeatureColumn) (t : Tensor) (pre : List FeatureTensors)
    (lt : FeatureTensors) (m : String)
    (hget : dictGet ft fc.name = some (pre ++ [lt])) (hm : m ≠ fc.name) :
    add_encoded_tensor_to_dict ft fc t
      = .ok (dictSet ft fc.name (pre ++
          [{ input_tensor := lt.input_tensor
             encoded_tensors := lt.encoded_tensors ++
               (if lt.encoded_tensors.any (fun u => u.id == t.id) then []
                else [t]) }]))
    ∧ dictGet (dictSet ft fc.name (pre ++
          [{ input_tensor := lt.input_tensor
             encoded_tensors := lt.encoded_tensors ++
               (if lt.encoded_tensors.any (fun u => u.id == t.id) then []
                else [t]) }])) fc.name
      = some (pre ++
          [{ input_tensor := lt.input_tensor
             encoded_tensors := lt.encoded_tensors ++
               (if lt.encoded_tensors.any (fun u => u.id == t.id) then []
                else [t]) }])
    ∧ dictGet (dictSet ft fc.name (pre ++
          [{ input_tensor := lt.input_tensor
             encoded_tensors := lt.encoded_tensors ++
               (if lt.encoded_tensors.any (fun u => u.id == t.id) then []
                else [t]) }])) m
      = dictGet ft m := by
  refine ⟨?_, ?_, ?_⟩
  · rw [add_encoded_spec ft fc t pre lt hget]
    by_cases hc : lt.encoded_tensors.any (fun u => u.id == t.id) = true
    · simp [hc]
    · simp [hc]
  · rw [dictGet_dictSet, if_pos rfl]
  · rw [dictGet_dictSet, if_neg hm]

/-- Witness for C10 at a concrete input: recording a fresh tensor for
feature `f` of `ftEnc` appends it to the last record while the lookup of
`g` stays untouched. -/
theorem add_encoded_appends_only_to_last_record_witness :
    add_encoded_tensor_to_dict ftEnc (.numeric "f") tA
      = .ok [("f", [{ input_tensor := { id := 0, val := [] },
                      encoded_tensors := [{ id := 9, val := [] }, tA] }])] := by
  have h := (add_encoded_appends_only_to_last_record ftEnc (.numeric "f") tA []
    { input_tensor := { id := 0, val := [] },
      encoded_tensors := [{ id := 9, val := [] }] } "g" rfl (by decide)).1
  exact h.trans (by decide)

end ExplainableAI
